import Mathlib

/-!
Shallow embedding of the multi-tenant RAG system:

* `src/services/vector_store_service.py` — the two vector-store backends
  (per-tenant Chroma collections, shared Pinecone index with metadata
  filter), tenant-scoped search, and `get_document_count`;
* `src/services/rag_service.py` — the non-streaming `query` and the
  streaming `query_stream` pipeline with the retrieval-fallback decision;
* `src/components/chat/state.py` — the background worker, the
  per-conversation update queue, the dispatcher `process_all_updates`,
  and the idempotent persistence handler `save_conversation_to_db`.

Machine floats of the source are embedded as `ℚ`; Python exceptions as
`Except String`; external collaborators (Chroma/Pinecone similarity
search, the LLM stream, the relational store, wall-clock time and float
formatting) are parameters of the model.
-/

namespace RagSpec

/-- Decimal rendering of a natural number: the embedding of Python
`str(n)` for a non-negative int, as used by the f-strings of the source
(`f"user_{user_id}_docs"` etc.). Fuel-based so that it reduces in the
kernel; `natStrAux (n+1) n` always has enough fuel. -/
def natStrAux : Nat → Nat → List Char
  | 0, _ => []
  | f + 1, n =>
    if n < 10 then [Nat.digitChar n]
    else natStrAux f (n / 10) ++ [Nat.digitChar (n % 10)]

/-- Embedding of Python `str(n)` for `n : Nat`. -/
def natStr (n : Nat) : String := ⟨natStrAux (n + 1) n⟩

/-- Decimal value of a digit-character list; left inverse of `natStrAux`
used to prove injectivity of `natStr`. -/
def charsVal (l : List Char) : Nat := l.foldl (fun a c => a * 10 + (c.toNat - 48)) 0

/-! ## Data model: documents and metadata

`DocumentService._process_document` attaches metadata
`{"doc_id", "chunk_id", "user_id", "source"}` to every chunk.
`user_id` is `Option Nat` because `add_documents` in cloud mode checks
`"user_id" not in doc.metadata` before stamping it. -/

/-- Chunk metadata as built by `DocumentService._process_document`. -/
structure DocMeta where
  doc_id : String
  chunk_id : Nat
  user_id : Option Nat
  source : String
deriving DecidableEq

/-- A langchain `Document`: page content plus metadata. -/
structure Document where
  page_content : String
  metadata : DocMeta
deriving DecidableEq

/-! ## VectorStoreService (src/services/vector_store_service.py)

Variant A ("local", Chroma): one physical collection per tenant, keyed by
the pair (persist directory, collection name), both derived from the
tenant id. Variant B ("cloud", Pinecone): a single shared index; writes
stamp `user_id` into metadata, reads always pass `filter={"user_id": uid}`.
The similarity-search primitives of Chroma/Pinecone are external
collaborators and appear as parameters; the Pinecone filter contract
(results lie in the index and satisfy the metadata equality) is a
hypothesis of the isolation theorem. -/

/-- `VectorStoreService.get_collection_name`: `f"user_{user_id}_docs"`. -/
def get_collection_name (user_id : Nat) : String :=
  "user_" ++ natStr user_id ++ "_docs"

/-- `VectorStoreService.get_persist_directory`:
`f"{config.CHROMA_DB_DIR}/user_{user_id}_collection"`. -/
def get_persist_directory (chromaDbDir : String) (user_id : Nat) : String :=
  chromaDbDir ++ "/user_" ++ natStr user_id ++ "_collection"

/-- The physical state of the local (Chroma) backend: the contents of the
collection found at a given (persist directory, collection name) pair. -/
abbrev LocalDB := String × String → List Document

/-- The on-disk location `_get_chroma_vector_store` opens for a tenant. -/
def localKey (chromaDbDir : String) (user_id : Nat) : String × String :=
  (get_persist_directory chromaDbDir user_id, get_collection_name user_id)

/-- The empty local backend (no collection holds any document). -/
def emptyLocalDB : LocalDB := fun _ => []

/-- `add_documents`, local branch: documents go verbatim into the calling
tenant's collection (no metadata stamping in this branch). -/
def add_documents_local (chromaDbDir : String) (db : LocalDB) (user_id : Nat)
    (documents : List Document) : LocalDB :=
  fun key => if key = localKey chromaDbDir user_id then db key ++ documents else db key

/-- The local index produced by a sequence of `add_documents` calls
(tenant id paired with the submitted chunk list), starting empty. -/
def indexLocal (chromaDbDir : String) (adds : List (Nat × List Document)) : LocalDB :=
  adds.foldl (fun db p => add_documents_local chromaDbDir db p.1 p.2) emptyLocalDB

/-- `search_similar`, local branch: plain `similarity_search` on the
tenant's own collection (`chromaSearch` is the Chroma collaborator). -/
def search_similar_local (chromaSearch : List Document → String → Nat → List Document)
    (chromaDbDir : String) (db : LocalDB) (user_id : Nat) (query : String) (k : Nat) :
    List Document :=
  chromaSearch (db (localKey chromaDbDir user_id)) query k

/-- `search_with_score`, local branch: `similarity_search_with_score` on
the tenant's own collection. -/
def search_with_score_local
    (chromaSearchWS : List Document → String → Nat → List (Document × ℚ))
    (chromaDbDir : String) (db : LocalDB) (user_id : Nat) (query : String) (k : Nat) :
    List (Document × ℚ) :=
  chromaSearchWS (db (localKey chromaDbDir user_id)) query k

/-- The shared (Pinecone) index: one list of documents for all tenants. -/
abbrev CloudDB := List Document

/-- The metadata stamping of `add_documents`, cloud branch:
`if "user_id" not in doc.metadata: doc.metadata["user_id"] = user_id`. -/
def stampUserId (user_id : Nat) (d : Document) : Document :=
  match d.metadata.user_id with
  | some _ => d
  | none => { d with metadata := { d.metadata with user_id := some user_id } }

/-- `add_documents`, cloud branch: stamp then append to the shared index. -/
def add_documents_cloud (db : CloudDB) (user_id : Nat) (documents : List Document) :
    CloudDB :=
  db ++ documents.map (stampUserId user_id)

/-- The shared index produced by a sequence of `add_documents` calls. -/
def indexCloud (adds : List (Nat × List Document)) : CloudDB :=
  adds.foldl (fun db p => add_documents_cloud db p.1 p.2) []

/-- `search_similar`, cloud branch: `similarity_search` with
`filter={"user_id": user_id}`; `pineconeSearch` is the Pinecone
collaborator, whose last argument is the user id of the equality filter. -/
def search_similar_cloud (pineconeSearch : CloudDB → String → Nat → Nat → List Document)
    (db : CloudDB) (user_id : Nat) (query : String) (k : Nat) : List Document :=
  pineconeSearch db query k user_id

/-- `search_with_score`, cloud branch: `similarity_search_with_score` with
`filter={"user_id": user_id}`. -/
def search_with_score_cloud
    (pineconeSearchWS : CloudDB → String → Nat → Nat → List (Document × ℚ))
    (db : CloudDB) (user_id : Nat) (query : String) (k : Nat) : List (Document × ℚ) :=
  pineconeSearchWS db query k user_id

/-- The documents indexed under tenant `t` by a call sequence: the chunks
submitted by the `add_documents` calls made with tenant id `t`. -/
def docsAddedBy (adds : List (Nat × List Document)) (t : Nat) : List Document :=
  ((adds.filter (fun p => p.1 = t)).map (fun p => p.2)).flatten

/-- The documents the shared index stores for the calls of tenant `t`
(the submitted chunks after the cloud-branch metadata stamping). -/
def docsAddedByCloud (adds : List (Nat × List Document)) (t : Nat) : List Document :=
  ((adds.filter (fun p => p.1 = t)).map (fun p => p.2.map (stampUserId p.1))).flatten

/-! ## get_document_count and delete_documents

`get_document_count` wraps everything in `try/except: return 0`; the cloud
branch probes the index with a bounded `top_k=10000` query and falls back
to the relational chunk count. Collaborator outcomes are parameters:
`storeAcq` is `get_vector_store` (raises if the embedding model timed
out), `localCount` is Chroma `_collection.count()`, `probe` is the
Pinecone bounded query (`Except` for a raised exception, `none` for a
falsy response or one without a `matches` key, `some c` for `c` matches),
`dbCount` is `DocumentDAO.get_total_chunk_count`. -/

/-- `VectorStoreService.get_document_count`. -/
def get_document_count (mode : String) (storeAcq : Except String Unit)
    (localCount : Except String Nat) (probe : Except String (Option Nat))
    (dbCount : Except String Nat) : Nat :=
  match storeAcq with
  | .error _ => 0
  | .ok _ =>
    if mode = "cloud" then
      match probe with
      | .ok (some count) =>
        if count = 10000 then
          match dbCount with
          | .ok dbc => max count dbc
          | .error _ => count
        else count
      | .ok none => 0
      | .error _ =>
        match dbCount with
        | .ok dbc => dbc
        | .error _ => 0
    else
      match localCount with
      | .ok c => c
      | .error _ => 0

/-- `VectorStoreService.delete_documents`: the delete call is logged and
re-raised (`except Exception as e: logger.error(...); raise`), and a
failure of `get_vector_store` propagates as well. -/
def delete_documents (storeAcq : Except String Unit)
    (deleteOp : Except String Unit) : Except String Unit := do
  let _ ← storeAcq
  deleteOp

/-! ## RAGService (src/services/rag_service.py)

Both `query` and `query_stream` are embedded with their logic duplicated
inline, exactly as the source duplicates it; their agreement is a theorem,
not a shared definition. Parameters common to both:

* `fallbackEnabled`, `threshold` — `config.RAG_FALLBACK_ENABLED` and
  `config.RAG_SIMILARITY_THRESHOLD`;
* `fmt2` — the float formatting `f"{x:.2f}"` (external text rendering);
* `llm` — the language-model collaborator, giving for each prompt the
  finite chunk sequence of `chain.stream`; `chain.invoke` returns the
  concatenation of that sequence (spec §6);
* `elapsed` — the wall clock difference `time.time() - start_time`;
* `docs_with_scores` — the value `search_with_score` returned. -/

/-- A rendered prompt: `DIRECT_ANSWER_TEMPLATE` takes the question only,
`RAG_TEMPLATE` takes context and question. -/
inductive Prompt
  | direct (question : String)
  | rag (context : String) (question : String)
deriving DecidableEq

/-- One entry of the `thinking_process` list. -/
structure ThinkingStep where
  step : Nat
  action : String
  description : String
  details : String
deriving DecidableEq

/-- One entry of the `retrieved_docs` list built in RAG mode. -/
structure RetrievedDoc where
  chunk_id : Nat
  content : String
  similarity : ℚ
  metadata : DocMeta
deriving DecidableEq

/-- The result dictionary of `query` (also the payload of the terminal
`complete` event of `query_stream`). `fallback_reason` is `none` when the
key is absent, i.e. in grounded mode. -/
structure RagResult where
  answer : String
  retrieved_docs : List RetrievedDoc
  thinking_process : List ThinkingStep
  elapsed_time : ℚ
  tokens_used : Nat
  fallback_mode : Bool
  fallback_reason : Option String
deriving DecidableEq

/-- An event yielded by `query_stream`. -/
inductive StreamEvent
  | thinking (thinking_process : List ThinkingStep)
  | chunk (content : String)
  | complete (result : RagResult)
deriving DecidableEq

/-- `similarity = max(0, 1 - score)` (the raw score is a distance). -/
def toSimilarity (score : ℚ) : ℚ := max 0 (1 - score)

/-- Python `round(x, 2)` on the similarity. -/
def round2 (q : ℚ) : ℚ := (round (q * 100) : ℤ) / 100

/-- Python `max` over a nonempty list, as `foldl max` from the head. -/
def pyMax (x : ℚ) (xs : List ℚ) : ℚ := xs.foldl max x

/-- Thinking step 1 of both paths. -/
def step1 (question : String) : ThinkingStep :=
  ⟨1, "分析问题", "识别问题类型并提取关键词",
    "问题长度: " ++ natStr question.length ++ " 字符"⟩

/-- Terminal thinking step of both paths. -/
def step4 (fmt2 : ℚ → String) (elapsed : ℚ) : ThinkingStep :=
  ⟨4, "完成", "回答生成完成", "耗时: " ++ fmt2 elapsed ++ " 秒"⟩

/-- The `retrieved_docs` entries built by the RAG branch. -/
def buildRetrievedDocs (docs_with_scores : List (Document × ℚ)) : List RetrievedDoc :=
  docs_with_scores.enum.map fun p =>
    ⟨p.1, p.2.1.page_content, round2 (toSimilarity p.2.2), p.2.1.metadata⟩

/-- The context string: `"\n\n".join(f"[文档片段 {i+1}]\n{content}")`. -/
def buildContext (docs_with_scores : List (Document × ℚ)) : String :=
  String.intercalate "\n\n"
    (docs_with_scores.enum.map fun p =>
      "[文档片段 " ++ natStr (p.1 + 1) ++ "]\n" ++ p.2.1.page_content)

/-- `RAGService.query` (the non-streaming path, lines 40–193). -/
def query (fallbackEnabled : Bool) (threshold : ℚ) (fmt2 : ℚ → String)
    (llm : Prompt → List String) (elapsed : ℚ) (question : String)
    (docs_with_scores : List (Document × ℚ)) : RagResult :=
  let thinking1 : List ThinkingStep := [step1 question]
  let fallback_decision : Option String :=
    match docs_with_scores with
    | [] => some "未找到相关文档"
    | d :: ds =>
      if fallbackEnabled then
        let max_similarity := pyMax (toSimilarity d.2) (ds.map fun p => toSimilarity p.2)
        if max_similarity < threshold then
          some ("相似度太低（最高相似度: " ++ fmt2 max_similarity ++ "）")
        else none
      else none
  match fallback_decision with
  | some fallback_reason =>
    let thinking3 := thinking1 ++
      [⟨2, "降级到直接回答", fallback_reason, "使用大模型直接回答，不依赖知识库"⟩,
       ⟨3, "生成答案", "使用大模型直接回答", "不依赖知识库内容"⟩]
    let answer := String.join (llm (Prompt.direct question))
    { answer := answer
      retrieved_docs := []
      thinking_process := thinking3 ++ [step4 fmt2 elapsed]
      elapsed_time := elapsed
      tokens_used := question.length / 4 + answer.length / 4
      fallback_mode := true
      fallback_reason := some fallback_reason }
  | none =>
    let retrieved_docs := buildRetrievedDocs docs_with_scores
    let context := buildContext docs_with_scores
    let avg_similarity :=
      (retrieved_docs.map fun d => d.similarity).sum / (retrieved_docs.length : ℚ)
    let thinking3 := thinking1 ++
      [⟨2, "文档检索", "检索到 " ++ natStr retrieved_docs.length ++ " 个相关段落",
         "平均相似度: " ++ fmt2 avg_similarity⟩,
       ⟨3, "生成答案", "基于检索结果生成回答",
         "上下文长度: " ++ natStr context.length ++ " 字符"⟩]
    let answer := String.join (llm (Prompt.rag context question))
    { answer := answer
      retrieved_docs := retrieved_docs
      thinking_process := thinking3 ++ [step4 fmt2 elapsed]
      elapsed_time := elapsed
      tokens_used := context.length / 4 + question.length / 4 + answer.length / 4
      fallback_mode := false
      fallback_reason := none }

/-- `RAGService.query_stream` (the streaming path, lines 195–390): one
`thinking` event with the first three steps, one `chunk` event per LLM
increment, then the terminal `complete` event whose `answer` is the
accumulated `full_answer`. -/
def query_stream (fallbackEnabled : Bool) (threshold : ℚ) (fmt2 : ℚ → String)
    (llm : Prompt → List String) (elapsed : ℚ) (question : String)
    (docs_with_scores : List (Document × ℚ)) : List StreamEvent :=
  let thinking1 : List ThinkingStep := [step1 question]
  let fallback_decision : Option String :=
    match docs_with_scores with
    | [] => some "未找到相关文档"
    | d :: ds =>
      if fallbackEnabled then
        let max_similarity := pyMax (toSimilarity d.2) (ds.map fun p => toSimilarity p.2)
        if max_similarity < threshold then
          some ("相似度太低（最高相似度: " ++ fmt2 max_similarity ++ "）")
        else none
      else none
  match fallback_decision with
  | some fallback_reason =>
    let thinking3 := thinking1 ++
      [⟨2, "降级到直接回答", fallback_reason, "使用大模型直接回答，不依赖知识库"⟩,
       ⟨3, "生成答案", "使用大模型直接回答", "不依赖知识库内容"⟩]
    let chunks := llm (Prompt.direct question)
    let full_answer := chunks.foldl (· ++ ·) ""
    StreamEvent.thinking thinking3 ::
      chunks.map StreamEvent.chunk ++
      [StreamEvent.complete
        { answer := full_answer
          retrieved_docs := []
          thinking_process := thinking3 ++ [step4 fmt2 elapsed]
          elapsed_time := elapsed
          tokens_used := question.length / 4 + full_answer.length / 4
          fallback_mode := true
          fallback_reason := some fallback_reason }]
  | none =>
    let retrieved_docs := buildRetrievedDocs docs_with_scores
    let context := buildContext docs_with_scores
    let avg_similarity :=
      (retrieved_docs.map fun d => d.similarity).sum / (retrieved_docs.length : ℚ)
    let thinking3 := thinking1 ++
      [⟨2, "文档检索", "检索到 " ++ natStr retrieved_docs.length ++ " 个相关段落",
         "平均相似度: " ++ fmt2 avg_similarity⟩,
       ⟨3, "生成答案", "基于检索结果生成回答",
         "上下文长度: " ++ natStr context.length ++ " 字符"⟩]
    let chunks := llm (Prompt.rag context question)
    let full_answer := chunks.foldl (· ++ ·) ""
    StreamEvent.thinking thinking3 ::
      chunks.map StreamEvent.chunk ++
      [StreamEvent.complete
        { answer := full_answer
          retrieved_docs := retrieved_docs
          thinking_process := thinking3 ++ [step4 fmt2 elapsed]
          elapsed_time := elapsed
          tokens_used := context.length / 4 + question.length / 4 + full_answer.length / 4
          fallback_mode := false
          fallback_reason := none }]

/-- The content of a `chunk` event, if any. -/
def chunkContent : StreamEvent → Option String
  | .chunk c => some c
  | _ => none

/-- The payload of a `complete` event, if any. -/
def completePayload : StreamEvent → Option RagResult
  | .complete r => some r
  | _ => none

/-! ## Conversation state (src/components/chat/state.py)

A conversation is the dict built in `create_conversation` /
`load_session_messages`; the `thread` handle and `created_at` timestamp
carry no dispatcher-visible semantics and are omitted.
`ai_message_saved` is read with `state.get(...)`, so the key being absent
(as in a freshly created conversation) is the value `false`.
The relational persistence collaborator (`SessionService`) is embedded as
a call log of `DbCall`s; `freshId` is the session id `create_session`
would return. Python exceptions again appear as `Except String`. -/

/-- A transcript message. -/
structure Msg where
  role : String
  content : String
  retrieved_docs : Option (List RetrievedDoc) := none
  thinking_process : Option (List ThinkingStep) := none
deriving DecidableEq

/-- An entry of a conversation's `update_queue`, as put by
`background_generation`: the worker copies `response['type']` and carries
the event payload (`data`), or puts `{'type': 'error', 'error': str(e)}`.
The `conv_id` field of each update is never read by the dispatcher (the
queue is private to one conversation) and is omitted. -/
inductive QueueEntry
  | chunk (content : String)
  | thinking (thinking_process : List ThinkingStep)
  | complete (data : RagResult)
  | error (msg : String)
deriving DecidableEq

/-- The per-conversation state dict. -/
structure ConvState where
  conversation_id : String
  user_id : Nat
  question : String
  messages : List Msg
  status : String
  current_answer : String
  result : Option RagResult
  update_queue : List QueueEntry
  session_id : Option Nat
  error : Option String
  ai_message_saved : Bool := false
deriving DecidableEq

/-- One call to the persistence collaborator (`SessionService`). -/
inductive DbCall
  | createSession (user_id : Nat) (first_question : String)
  | saveMessage (session_id : Nat) (role : String) (content : String)
      (retrieved_docs : Option (List RetrievedDoc))
      (thinking_process : Option (List ThinkingStep)) (tokens_used : Nat)
deriving DecidableEq

/-- The lazy session-creation prelude of `save_conversation_to_db`:
state after it, calls it made, and the local `session_id` variable. -/
def lazySession (freshId : Nat) (st : ConvState) : ConvState × List DbCall × Nat :=
  match st.session_id with
  | some sid => (st, [], sid)
  | none =>
    ({ st with session_id := some freshId },
     [DbCall.createSession st.user_id st.question,
      DbCall.saveMessage freshId "user" st.question none none 0],
     freshId)

/-- `save_conversation_to_db` (state.py lines 115–149): no-op unless the
conversation is `completed`; lazily create the session and persist the
user message if no session exists yet; then, unless `ai_message_saved`,
persist the assistant message and set the flag. Reading
`state['result']['answer']` with `result` still `None` raises. -/
def save_conversation_to_db (freshId : Nat) (st : ConvState) :
    Except String (ConvState × List DbCall) :=
  if st.status ≠ "completed" then .ok (st, [])
  else
    let t := lazySession freshId st
    if t.1.ai_message_saved then .ok (t.1, t.2.1)
    else
      match t.1.result with
      | none => .error "TypeError: NoneType is not subscriptable"
      | some r =>
        .ok ({ t.1 with ai_message_saved := true },
          t.2.1 ++
            [DbCall.saveMessage t.2.2 "assistant" r.answer
              (some r.retrieved_docs) (some r.thinking_process) r.tokens_used])

/-- `n` successive invocations of `save_conversation_to_db` on the same
conversation, accumulating the persistence calls. -/
def saveIter (freshId : Nat) : Nat → ConvState → Except String (ConvState × List DbCall)
  | 0, st => .ok (st, [])
  | n + 1, st => do
    let (st1, c) ← save_conversation_to_db freshId st
    let (st2, cs) ← saveIter freshId n st1
    pure (st2, c ++ cs)

/-- How many of the logged calls persist an assistant message. -/
def countAssistantSaves (calls : List DbCall) : Nat :=
  (calls.filter fun c =>
    match c with
    | .saveMessage _ role _ _ _ _ => role == "assistant"
    | _ => false).length

/-- The queue entry `background_generation` derives from one pipeline
event: empty chunks are filtered out and not enqueued; `thinking` and
`complete` events are enqueued with their payload. -/
def entryOfEvent : StreamEvent → Option QueueEntry
  | .chunk c => if c = "" then none else some (.chunk c)
  | .thinking tp => some (.thinking tp)
  | .complete r => some (.complete r)

/-- `background_generation` (state.py lines 23–62): the queue contents the
worker produces. `events` is the prefix of the pipeline's event sequence
that the `for` loop iterated before an exception was raised (the whole
sequence when `err = none`); the `except` handler enqueues a single
`{'type': 'error', 'error': str(e)}` entry and the worker ends. -/
def background_generation (events : List StreamEvent) (err : Option String) :
    List QueueEntry :=
  events.filterMap entryOfEvent ++
    (match err with
     | some m => [QueueEntry.error m]
     | none => [])

/-- The chunk payload of a queue entry, if any. -/
def chunkText : QueueEntry → Option String
  | .chunk c => some c
  | _ => none

/-- Whether a queue entry terminates the batch (`complete` or `error`). -/
def isTerminalEntry : QueueEntry → Bool
  | .complete _ => true
  | .error _ => true
  | _ => false

/-- Whether a queue entry is an `error` entry. -/
def isErrorEntry : QueueEntry → Bool
  | .error _ => true
  | _ => false

/-- The batching drain loop of `process_all_updates` for one conversation
(state.py lines 177–213): `fuel` is the remaining batch capacity
(`MAX_BATCH_SIZE - batch_size`, initially 10). Returns the drained state,
the persistence calls, and the `chunk_count` / `total_count` /
`current_updated` tallies of the loop. A `thinking` entry matches none of
the branches: it is dequeued and counted but changes nothing. `complete`
and `error` apply their transition and `break` out of the batch. The
second, background-conversation loop (lines 226–254) executes the same
transitions and merely skips the tallies; it reuses this definition. -/
def drainConv (freshId : Nat) : Nat → ConvState →
    Except String (ConvState × List DbCall × Nat × Nat × Bool)
  | 0, st => .ok (st, [], 0, 0, false)
  | fuel + 1, st =>
    match st.update_queue with
    | [] => .ok (st, [], 0, 0, false)
    | e :: rest =>
      match e with
      | .chunk c => do
        let (st2, calls, cc, tc, _) ← drainConv freshId fuel
          { st with update_queue := rest, current_answer := st.current_answer ++ c }
        pure (st2, calls, cc + 1, tc + 1, true)
      | .thinking _ => do
        let (st2, calls, cc, tc, upd) ← drainConv freshId fuel
          { st with update_queue := rest }
        pure (st2, calls, cc, tc + 1, upd)
      | .complete d => do
        let stC := { st with
          update_queue := rest
          status := "completed"
          result := some d
          current_answer := d.answer
          messages := st.messages ++
            [⟨"assistant", d.answer, some d.retrieved_docs, some d.thinking_process⟩] }
        let (st2, calls) ← save_conversation_to_db freshId stC
        pure (st2, calls, 0, 1, true)
      | .error m =>
        .ok ({ st with update_queue := rest, status := "error", error := some m },
          [], 0, 1, true)

/-- The UI-session registry: `st.session_state.current_conversation_id`
and the insertion-ordered dict `st.session_state.active_conversations`. -/
structure Registry where
  current_conversation_id : Option String
  active_conversations : List (String × ConvState)
deriving DecidableEq

/-- Python `active_conversations.get(cid)`. -/
def lookupConv (convs : List (String × ConvState)) (cid : String) : Option ConvState :=
  (convs.find? fun p => p.1 == cid).map (fun p => p.2)

/-- In-place mutation of the conversation dict entry. -/
def setConv (convs : List (String × ConvState)) (cid : String) (st : ConvState) :
    List (String × ConvState) :=
  convs.map fun p => if p.1 == cid then (p.1, st) else p

/-- The background-conversation loop of `process_all_updates` (lines
219–254): every conversation other than the focused one is drained with
the same per-conversation cap. -/
def drainOthers (freshId : Nat) (currentId : Option String) :
    List (String × ConvState) → Except String (List (String × ConvState) × List DbCall)
  | [] => .ok ([], [])
  | (cid, st) :: rest =>
    if some cid = currentId then do
      let (rest2, calls) ← drainOthers freshId currentId rest
      pure ((cid, st) :: rest2, calls)
    else do
      let (st2, calls1, _, _, _) ← drainConv freshId 10 st
      let (rest2, calls2) ← drainOthers freshId currentId rest
      pure ((cid, st2) :: rest2, calls1 ++ calls2)

/-- `process_all_updates` (state.py lines 151–260): drain the focused
conversation's queue with a batch cap of 10, then every other
conversation's queue similarly; returns the new registry, the persistence
calls, and the `{'updated', 'chunk_count', 'total_count'}` result dict. -/
def process_all_updates (freshId : Nat) (reg : Registry) :
    Except String (Registry × List DbCall × Bool × Nat × Nat) :=
  match reg.current_conversation_id with
  | none => do
    let (convs2, calls) ← drainOthers freshId none reg.active_conversations
    pure ({ reg with active_conversations := convs2 }, calls, false, 0, 0)
  | some cid =>
    match lookupConv reg.active_conversations cid with
    | none => do
      let (convs2, calls) ← drainOthers freshId (some cid) reg.active_conversations
      pure ({ reg with active_conversations := convs2 }, calls, false, 0, 0)
    | some st => do
      let (st2, callsF, cc, tc, upd) ← drainConv freshId 10 st
      let convs1 := setConv reg.active_conversations cid st2
      let (convs2, callsO) ← drainOthers freshId (some cid) convs1
      pure ({ reg with active_conversations := convs2 }, callsF ++ callsO, upd, cc, tc)

/-! ## Concrete collaborator instances

Small executable instances of the external collaborators, used to
evaluate the theorems on concrete inputs. -/

/-- A Chroma search instance: returns the whole collection. -/
def sampleChromaSearch (coll : List Document) (_query : String) (_k : Nat) :
    List Document := coll

/-- A scored Chroma search instance: the whole collection at distance 1. -/
def sampleChromaSearchWS (coll : List Document) (_query : String) (_k : Nat) :
    List (Document × ℚ) := coll.map fun d => (d, 1)

/-- A Pinecone search instance honouring the metadata equality filter. -/
def samplePineconeSearch (db : CloudDB) (_query : String) (_k : Nat) (uid : Nat) :
    List Document := db.filter fun d => d.metadata.user_id == some uid

/-- A scored Pinecone search instance honouring the filter. -/
def samplePineconeSearchWS (db : CloudDB) (_query : String) (_k : Nat) (uid : Nat) :
    List (Document × ℚ) :=
  (db.filter fun d => d.metadata.user_id == some uid).map fun d => (d, 1)

/-- A chunk of tenant 1. -/
def docA : Document := ⟨"alpha", ⟨"dA", 0, some 1, "a.txt"⟩⟩

/-- A chunk of tenant 2. -/
def docB : Document := ⟨"beta", ⟨"dB", 0, some 2, "b.txt"⟩⟩

/-- A concrete completed pipeline result. -/
def sampleResult : RagResult := ⟨"你好！", [], [], 0, 3, false, none⟩

/-- A concrete completed conversation whose assistant reply has not been
persisted yet. -/
def sampleCompletedConv : ConvState :=
  ⟨"conv_ab12cd34", 1, "问题?", [⟨"user", "问题?", none, none⟩], "completed",
    "你好！", some sampleResult, [], some 5, none, false⟩

/-- A concrete conversation mid-generation with a given queue. -/
def sampleGenConv (queue : List QueueEntry) : ConvState :=
  ⟨"conv_ff00aa11", 2, "问题2", [⟨"user", "问题2", none, none⟩], "generating",
    "", none, queue, some 6, none, false⟩

/-! ## Helper lemmas: decimal strings and collection-name injectivity -/

theorem charsVal_append (l : List Char) (c : Char) :
    charsVal (l ++ [c]) = charsVal l * 10 + (c.toNat - 48) := by
  simp [charsVal, List.foldl_append]

theorem digitChar_sub (d : Nat) (h : d < 10) : (Nat.digitChar d).toNat - 48 = d := by
  interval_cases d <;> rfl

theorem natStrAux_val : ∀ f n, n ≤ f → charsVal (natStrAux (f + 1) n) = n := by
  intro f
  induction f with
  | zero =>
    intro n hn
    have h0 : n = 0 := Nat.le_zero.mp hn
    subst h0
    rfl
  | succ f ih =>
    intro n hn
    by_cases h10 : n < 10
    · show charsVal (natStrAux (f + 1 + 1) n) = n
      rw [natStrAux, if_pos h10]
      have : charsVal [Nat.digitChar n] = (Nat.digitChar n).toNat - 48 := by
        simp [charsVal]
      rw [this, digitChar_sub n h10]
    · rw [natStrAux, if_neg h10]
      have hdiv : n / 10 ≤ f := by omega
      rw [charsVal_append, ih (n / 10) hdiv, digitChar_sub (n % 10) (Nat.mod_lt n (by omega))]
      omega

theorem natStr_data_inj {a b : Nat} (h : (natStr a).data = (natStr b).data) : a = b := by
  have h2 : charsVal (natStrAux (a + 1) a) = charsVal (natStrAux (b + 1) b) :=
    congrArg charsVal h
  rwa [natStrAux_val a a le_rfl, natStrAux_val b b le_rfl] at h2

theorem string_append_data (s t : String) : (s ++ t).data = s.data ++ t.data := rfl

theorem get_collection_name_injective : Function.Injective get_collection_name := by
  intro a b h
  have hd : ("user_".data ++ (natStr a).data) ++ "_docs".data =
      ("user_".data ++ (natStr b).data) ++ "_docs".data := by
    simpa [get_collection_name, string_append_data] using congrArg String.data h
  exact natStr_data_inj (List.append_cancel_left (List.append_cancel_right hd))

theorem localKey_injective (dir : String) {a b : Nat}
    (h : localKey dir a = localKey dir b) : a = b :=
  get_collection_name_injective (congrArg Prod.snd h)

/-! ## Helper lemmas: index contents per tenant -/

theorem docsAddedBy_cons (u : Nat) (ds : List Document)
    (rest : List (Nat × List Document)) (t : Nat) :
    docsAddedBy ((u, ds) :: rest) t =
      if u = t then ds ++ docsAddedBy rest t else docsAddedBy rest t := by
  by_cases h : u = t <;> simp [docsAddedBy, List.filter_cons, h]

theorem docsAddedByCloud_cons (u : Nat) (ds : List Document)
    (rest : List (Nat × List Document)) (t : Nat) :
    docsAddedByCloud ((u, ds) :: rest) t =
      if u = t then ds.map (stampUserId u) ++ docsAddedByCloud rest t
      else docsAddedByCloud rest t := by
  by_cases h : u = t <;> simp [docsAddedByCloud, List.filter_cons, h]

theorem indexLocal_fold (dir : String) (A : Nat) :
    ∀ (adds : List (Nat × List Document)) (db : LocalDB),
      (adds.foldl (fun db p => add_documents_local dir db p.1 p.2) db) (localKey dir A) =
        db (localKey dir A) ++ docsAddedBy adds A := by
  intro adds
  induction adds with
  | nil => intro db; simp [docsAddedBy]
  | cons p rest ih =>
    intro db
    obtain ⟨t, ds⟩ := p
    rw [List.foldl_cons, ih, docsAddedBy_cons]
    by_cases ht : t = A
    · subst ht
      rw [if_pos rfl]
      simp [add_documents_local, List.append_assoc]
    · rw [if_neg ht]
      have hkey : localKey dir A ≠ localKey dir t := fun hk => ht (localKey_injective dir hk).symm
      simp [add_documents_local, hkey]

theorem indexLocal_key (dir : String) (adds : List (Nat × List Document)) (A : Nat) :
    indexLocal dir adds (localKey dir A) = docsAddedBy adds A := by
  rw [indexLocal, indexLocal_fold]
  rfl

theorem stampUserId_user_id (u : Nat) (d : Document)
    (h : d.metadata.user_id = none ∨ d.metadata.user_id = some u) :
    (stampUserId u d).metadata.user_id = some u := by
  rcases h with h | h <;> simp [stampUserId, h]

theorem indexCloud_fold_mem (d : Document) :
    ∀ (adds : List (Nat × List Document)) (db : CloudDB),
      d ∈ adds.foldl (fun db p => add_documents_cloud db p.1 p.2) db →
      d ∈ db ∨ ∃ p ∈ adds, d ∈ p.2.map (stampUserId p.1) := by
  intro adds
  induction adds with
  | nil => intro db h; exact Or.inl h
  | cons p rest ih =>
    intro db h
    rw [List.foldl_cons] at h
    rcases ih (add_documents_cloud db p.1 p.2) h with h1 | ⟨p', hp', hd⟩
    · rcases List.mem_append.mp h1 with h2 | h2
      · exact Or.inl h2
      · exact Or.inr ⟨p, List.mem_cons_self p rest, h2⟩
    · exact Or.inr ⟨p', List.mem_cons_of_mem p hp', hd⟩

theorem indexCloud_mem {d : Document} {adds : List (Nat × List Document)}
    (h : d ∈ indexCloud adds) : ∃ p ∈ adds, d ∈ p.2.map (stampUserId p.1) := by
  rcases indexCloud_fold_mem d adds [] h with h1 | h1
  · exact absurd h1 (List.not_mem_nil d)
  · exact h1

theorem mem_docsAddedByCloud {adds : List (Nat × List Document)}
    {p : Nat × List Document} {x : Document} (hp : p ∈ adds) (hA : p.1 = A)
    (hx : x ∈ p.2.map (stampUserId p.1)) : x ∈ docsAddedByCloud adds A := by
  subst hA
  refine List.mem_flatten.mpr ⟨p.2.map (stampUserId p.1), ?_, hx⟩
  exact List.mem_map_of_mem _ (List.mem_filter.mpr ⟨hp, by simp⟩)

/-! ## C1: tenant isolation -/

/-- C1. Tenant isolation: for distinct tenants `A ≠ B`, any query and any
`k`, both `search` (`search_similar`) and `searchWithScore`
(`search_with_score`) return only documents indexed under tenant `A`, in
both backend variants. In the local (isolated-storage) variant this holds
because the collection name and persist directory are derived injectively
from the tenant id alone, so the searched collection holds exactly the
documents of the `add_documents(A, ·)` calls; in the cloud (shared-index)
variant because the strategy always attaches the `{"user_id": A}`
equality filter. The last two conjuncts state the `B` side: whenever the
documents indexed under `A` and under `B` are separate, no returned
document is one indexed under `B`. Hypotheses `hcs`–`hpws` are the
search collaborators' contracts (results come from the searched
collection; Pinecone results additionally satisfy the filter), and
`hadds` is the ingestion property of `DocumentService._process_document`
(a submitted chunk carries either no `user_id` metadata or its own
tenant's). -/
theorem c1_tenant_isolation
    (chromaSearch : List Document → String → Nat → List Document)
    (chromaSearchWS : List Document → String → Nat → List (Document × ℚ))
    (pineconeSearch : CloudDB → String → Nat → Nat → List Document)
    (pineconeSearchWS : CloudDB → String → Nat → Nat → List (Document × ℚ))
    (hcs : ∀ coll q k d, d ∈ chromaSearch coll q k → d ∈ coll)
    (hcws : ∀ coll q k p, p ∈ chromaSearchWS coll q k → p.1 ∈ coll)
    (hps : ∀ db q k uid d, d ∈ pineconeSearch db q k uid →
      d ∈ db ∧ d.metadata.user_id = some uid)
    (hpws : ∀ db q k uid p, p ∈ pineconeSearchWS db q k uid →
      p.1 ∈ db ∧ p.1.metadata.user_id = some uid)
    (dir : String) (adds : List (Nat × List Document))
    (hadds : ∀ p ∈ adds, ∀ d ∈ p.2,
      d.metadata.user_id = none ∨ d.metadata.user_id = some p.1)
    (A B : Nat) (hAB : A ≠ B) (q : String) (k : Nat) :
    (∀ d ∈ search_similar_local chromaSearch dir (indexLocal dir adds) A q k,
      d ∈ docsAddedBy adds A) ∧
    (∀ p ∈ search_with_score_local chromaSearchWS dir (indexLocal dir adds) A q k,
      p.1 ∈ docsAddedBy adds A) ∧
    (∀ d ∈ search_similar_cloud pineconeSearch (indexCloud adds) A q k,
      d ∈ docsAddedByCloud adds A) ∧
    (∀ p ∈ search_with_score_cloud pineconeSearchWS (indexCloud adds) A q k,
      p.1 ∈ docsAddedByCloud adds A) ∧
    ((∀ x, x ∈ docsAddedBy adds A → x ∉ docsAddedBy adds B) →
      ∀ p ∈ search_with_score_local chromaSearchWS dir (indexLocal dir adds) A q k,
        p.1 ∉ docsAddedBy adds B) ∧
    ((∀ x, x ∈ docsAddedByCloud adds A → x ∉ docsAddedByCloud adds B) →
      ∀ p ∈ search_with_score_cloud pineconeSearchWS (indexCloud adds) A q k,
        p.1 ∉ docsAddedByCloud adds B) := by
  have localSub : ∀ p ∈ search_with_score_local chromaSearchWS dir (indexLocal dir adds) A q k,
      p.1 ∈ docsAddedBy adds A := by
    intro p hp
    have hmem := hcws _ q k p hp
    rwa [indexLocal_key] at hmem
  have cloudMem : ∀ d : Document, d ∈ indexCloud adds → d.metadata.user_id = some A →
      d ∈ docsAddedByCloud adds A := by
    intro d hd huid
    obtain ⟨p, hpadds, hdp⟩ := indexCloud_mem hd
    obtain ⟨d0, hd0, rfl⟩ := List.mem_map.mp hdp
    have hstamp := stampUserId_user_id p.1 d0 (hadds p hpadds d0 hd0)
    have hpA : p.1 = A := by
      rw [hstamp] at huid
      exact Option.some_injective _ huid
    exact mem_docsAddedByCloud hpadds hpA hdp
  have cloudSub : ∀ p ∈ search_with_score_cloud pineconeSearchWS (indexCloud adds) A q k,
      p.1 ∈ docsAddedByCloud adds A := by
    intro p hp
    obtain ⟨hmem, huid⟩ := hpws _ q k A p hp
    exact cloudMem p.1 hmem huid
  refine ⟨?_, localSub, ?_, cloudSub, ?_, ?_⟩
  · intro d hd
    have hmem := hcs _ q k d hd
    rwa [indexLocal_key] at hmem
  · intro d hd
    obtain ⟨hmem, huid⟩ := hps _ q k A d hd
    exact cloudMem d hmem huid
  · intro hsep p hp
    exact hsep p.1 (localSub p hp)
  · intro hsep p hp
    exact hsep p.1 (cloudSub p hp)

/-- Witness for C1: the isolation theorem evaluated at the concrete
collaborators, the index `[(1, [docA]), (2, [docB])]`, tenants `1 ≠ 2`. -/
theorem c1_tenant_isolation_witness :
    (∀ d ∈ search_similar_local sampleChromaSearch "./chroma"
        (indexLocal "./chroma" [(1, [docA]), (2, [docB])]) 1 "q" 4,
      d ∈ docsAddedBy [(1, [docA]), (2, [docB])] 1) ∧
    (∀ p ∈ search_with_score_local sampleChromaSearchWS "./chroma"
        (indexLocal "./chroma" [(1, [docA]), (2, [docB])]) 1 "q" 4,
      p.1 ∈ docsAddedBy [(1, [docA]), (2, [docB])] 1) ∧
    (∀ d ∈ search_similar_cloud samplePineconeSearch
        (indexCloud [(1, [docA]), (2, [docB])]) 1 "q" 4,
      d ∈ docsAddedByCloud [(1, [docA]), (2, [docB])] 1) ∧
    (∀ p ∈ search_with_score_cloud samplePineconeSearchWS
        (indexCloud [(1, [docA]), (2, [docB])]) 1 "q" 4,
      p.1 ∈ docsAddedByCloud [(1, [docA]), (2, [docB])] 1) ∧
    ((∀ x, x ∈ docsAddedBy [(1, [docA]), (2, [docB])] 1 →
        x ∉ docsAddedBy [(1, [docA]), (2, [docB])] 2) →
      ∀ p ∈ search_with_score_local sampleChromaSearchWS "./chroma"
        (indexLocal "./chroma" [(1, [docA]), (2, [docB])]) 1 "q" 4,
        p.1 ∉ docsAddedBy [(1, [docA]), (2, [docB])] 2) ∧
    ((∀ x, x ∈ docsAddedByCloud [(1, [docA]), (2, [docB])] 1 →
        x ∉ docsAddedByCloud [(1, [docA]), (2, [docB])] 2) →
      ∀ p ∈ search_with_score_cloud samplePineconeSearchWS
        (indexCloud [(1, [docA]), (2, [docB])]) 1 "q" 4,
        p.1 ∉ docsAddedByCloud [(1, [docA]), (2, [docB])] 2) :=
  c1_tenant_isolation sampleChromaSearch sampleChromaSearchWS
    samplePineconeSearch samplePineconeSearchWS
    (fun _ _ _ _ h => h)
    (by
      intro coll q k p hp
      obtain ⟨d, hd, rfl⟩ := List.mem_map.mp hp
      exact hd)
    (by
      intro db q k uid d hd
      have h := List.mem_filter.mp hd
      exact ⟨h.1, eq_of_beq h.2⟩)
    (by
      intro db q k uid p hp
      obtain ⟨d, hd, rfl⟩ := List.mem_map.mp hp
      have h := List.mem_filter.mp hd
      exact ⟨h.1, eq_of_beq h.2⟩)
    "./chroma" [(1, [docA]), (2, [docB])]
    (by decide)
    1 2 (by decide) "q" 4

/-! ## Helper lemmas: string concatenation and stream shape -/

theorem foldl_strcat (l : List String) : ∀ s : String,
    l.foldl (· ++ ·) s = s ++ String.join l := by
  induction l with
  | nil => intro s; simp [String.join]
  | cons c l ih =>
    intro s
    have hj : String.join (c :: l) = c ++ String.join l := by
      show (c :: l).foldl (· ++ ·) "" = c ++ String.join l
      rw [List.foldl_cons, ih, String.empty_append]
    rw [List.foldl_cons, ih, hj, String.append_assoc]

theorem join_cons (c : String) (l : List String) :
    String.join (c :: l) = c ++ String.join l := by
  show (c :: l).foldl (· ++ ·) "" = c ++ String.join l
  rw [List.foldl_cons, foldl_strcat, String.empty_append]

theorem stream_shape (t : List ThinkingStep) (chunks : List String) (R : RagResult)
    (hR : R.answer = chunks.foldl (· ++ ·) "") :
    (StreamEvent.thinking t :: chunks.map StreamEvent.chunk
        ++ [StreamEvent.complete R]).getLast? = some (StreamEvent.complete R) ∧
    (StreamEvent.thinking t :: chunks.map StreamEvent.chunk
        ++ [StreamEvent.complete R]).filterMap completePayload = [R] ∧
    String.join ((StreamEvent.thinking t :: chunks.map StreamEvent.chunk
        ++ [StreamEvent.complete R]).filterMap chunkContent) = R.answer := by
  refine ⟨List.getLast?_concat _, ?_, ?_⟩
  · simp [completePayload, List.filterMap_append, List.filterMap_map, Function.comp]
  · have hch : (StreamEvent.thinking t :: chunks.map StreamEvent.chunk
        ++ [StreamEvent.complete R]).filterMap chunkContent = chunks := by
      simp only [List.cons_append, List.filterMap_cons, List.filterMap_append,
        List.filterMap_map, List.filterMap_nil, List.append_nil, chunkContent]
      exact List.filterMap_some chunks
    rw [hch, hR, foldl_strcat, String.empty_append]

/-! ## C2: chunk concatenation equals the terminal answer -/

/-- C2. For every question, every retrieval outcome and every chunk
sequence the language model streams, `query_stream` yields exactly one
`complete` event, it is the last event, and the concatenation (in
emission order) of the `content` payloads of all `chunk` events equals
the `answer` field of that `complete` event — on the grounded path and
the fallback path alike. -/
theorem c2_chunk_concat_equals_answer (fallbackEnabled : Bool) (threshold : ℚ)
    (fmt2 : ℚ → String) (llm : Prompt → List String) (elapsed : ℚ) (question : String)
    (docs_with_scores : List (Document × ℚ)) :
    ∃ r : RagResult,
      (query_stream fallbackEnabled threshold fmt2 llm elapsed question
          docs_with_scores).getLast? = some (StreamEvent.complete r) ∧
      (query_stream fallbackEnabled threshold fmt2 llm elapsed question
          docs_with_scores).filterMap completePayload = [r] ∧
      String.join ((query_stream fallbackEnabled threshold fmt2 llm elapsed question
          docs_with_scores).filterMap chunkContent) = r.answer := by
  simp only [query_stream]
  split
  · exact ⟨_, stream_shape _ _ _ rfl⟩
  · exact ⟨_, stream_shape _ _ _ rfl⟩

/-! ## C9: the streaming and non-streaming paths agree -/

theorem stream_terminal_eq_query (fallbackEnabled : Bool) (threshold : ℚ)
    (fmt2 : ℚ → String) (llm : Prompt → List String) (elapsed : ℚ) (question : String)
    (docs_with_scores : List (Document × ℚ)) :
    (query_stream fallbackEnabled threshold fmt2 llm elapsed question
        docs_with_scores).getLast?
      = some (StreamEvent.complete
          (query fallbackEnabled threshold fmt2 llm elapsed question
            docs_with_scores)) := by
  simp only [query, query_stream]
  split
  · rw [List.getLast?_concat]
    rfl
  · rw [List.getLast?_concat]
    rfl

/-- C9. For every configuration, question and retrieval result, and given
the same language-model output for the same prompt, `query_stream`'s
terminal `complete` event carries exactly the result `query` returns:
the same fallback decision and reason, the same `retrieved_docs` (hence
the same context, whose length appears in the thinking steps and the
token estimate), the same `answer`, `tokens_used` and `fallback_mode`. -/
theorem c9_query_stream_agree (fallbackEnabled : Bool) (threshold : ℚ)
    (fmt2 : ℚ → String) (llm : Prompt → List String) (elapsed : ℚ) (question : String)
    (docs_with_scores : List (Document × ℚ)) :
    (query_stream fallbackEnabled threshold fmt2 llm elapsed question
        docs_with_scores).getLast?
      = some (StreamEvent.complete
          (query fallbackEnabled threshold fmt2 llm elapsed question
            docs_with_scores)) :=
  stream_terminal_eq_query fallbackEnabled threshold fmt2 llm elapsed question
    docs_with_scores

/-! ## C3: empty retrieval always falls back -/

/-- C3. If `search_with_score` returns the empty list, both `query` and
`query_stream` take the fallback path with `fallback_mode = true` and
`fallback_reason` the "no relevant documents" message (未找到相关文档),
for every value of the fallback-enabled flag and of the similarity
threshold. -/
theorem c3_empty_retrieval_falls_back (fallbackEnabled : Bool) (threshold : ℚ)
    (fmt2 : ℚ → String) (llm : Prompt → List String) (elapsed : ℚ)
    (question : String) :
    (query fallbackEnabled threshold fmt2 llm elapsed question []).fallback_mode = true ∧
    (query fallbackEnabled threshold fmt2 llm elapsed question []).fallback_reason
      = some "未找到相关文档" ∧
    (∃ rs : RagResult,
      (query_stream fallbackEnabled threshold fmt2 llm elapsed question []).getLast?
        = some (StreamEvent.complete rs) ∧
      rs.fallback_mode = true ∧ rs.fallback_reason = some "未找到相关文档") := by
  refine ⟨rfl, rfl, ?_⟩
  exact ⟨_, stream_terminal_eq_query fallbackEnabled threshold fmt2 llm elapsed question [],
    rfl, rfl⟩

/-! ## C4: single-document threshold decision

The claim as frozen quantifies over *every* configuration, but the source
consults the threshold only under `config.RAG_FALLBACK_ENABLED`
(rag_service.py lines 80 and 247): with the flag off and a nonempty
retrieval the pipeline never falls back, whatever the similarity. -/

/-- C4 counterexample. With the fallback-enabled flag `false`, threshold
`1/2` and a single retrieved document of raw score `4/5`, the similarity
`max(1-s,0) = 1/5` is below the threshold, yet `query` (and the terminal
event of `query_stream`) report `fallback_mode = false` — refuting
"fallback iff `max(1-s,0) < threshold`" as a statement about every
configuration. -/
theorem c4_counterexample :
    toSimilarity (4/5 : ℚ) < (1/2 : ℚ) ∧
    (query false (1/2) (fun _ => "") (fun _ => ["ans"]) 0 "q"
        [(docA, 4/5)]).fallback_mode = false ∧
    (∃ rs : RagResult,
      (query_stream false (1/2) (fun _ => "") (fun _ => ["ans"]) 0 "q"
          [(docA, 4/5)]).getLast? = some (StreamEvent.complete rs) ∧
      rs.fallback_mode = false) := by
  refine ⟨by norm_num [toSimilarity], rfl, ?_⟩
  exact ⟨_, stream_terminal_eq_query false (1/2) (fun _ => "") (fun _ => ["ans"]) 0 "q"
    [(docA, 4/5)], rfl⟩

/-- C4 amended. For every configuration **whose fallback-enabled flag is
true**, a single retrieved document with raw score `s` falls back iff
`max(1-s,0) < threshold`; with the flag false the single-document path is
always grounded. In particular (flag true, threshold `1/2`): raw score
`4/5` gives similarity `1/5` and fallback, raw score `3/10` gives
similarity `7/10` and grounded mode. -/
theorem c4_single_doc_threshold (threshold : ℚ) (fmt2 : ℚ → String)
    (llm : Prompt → List String) (elapsed : ℚ) (question : String)
    (d : Document) (s : ℚ) :
    ((query true threshold fmt2 llm elapsed question [(d, s)]).fallback_mode
      = decide (toSimilarity s < threshold)) ∧
    ((query false threshold fmt2 llm elapsed question [(d, s)]).fallback_mode = false) ∧
    (∃ rs : RagResult,
      (query_stream true threshold fmt2 llm elapsed question [(d, s)]).getLast?
        = some (StreamEvent.complete rs) ∧
      rs.fallback_mode = decide (toSimilarity s < threshold)) ∧
    ((query true (1/2) fmt2 llm elapsed question [(d, 4/5)]).fallback_mode = true) ∧
    ((query true (1/2) fmt2 llm elapsed question [(d, 3/10)]).fallback_mode = false) := by
  have hmain : ∀ th : ℚ, (query true th fmt2 llm elapsed question [(d, s)]).fallback_mode
      = decide (toSimilarity s < th) := by
    intro th
    by_cases h : toSimilarity s < th
    · simp [query, pyMax, h]
    · simp [query, pyMax, h]
  refine ⟨hmain threshold, rfl, ?_, ?_, ?_⟩
  · exact ⟨_, stream_terminal_eq_query true threshold fmt2 llm elapsed question [(d, s)],
      hmain threshold⟩
  · norm_num [query, pyMax, toSimilarity]
  · norm_num [query, pyMax, toSimilarity]

/-! ## C5: idempotent persistence -/

theorem except_ok_bind {α β : Type} (a : α) (f : α → Except String β) :
    (Except.ok a >>= f : Except String β) = f a := rfl

theorem save_noop (freshId : Nat) (st : ConvState) (sid : Nat)
    (hflag : st.ai_message_saved = true) (hsid : st.session_id = some sid) :
    save_conversation_to_db freshId st = .ok (st, []) := by
  by_cases hst : st.status = "completed"
  · simp [save_conversation_to_db, hst, lazySession, hsid, hflag]
  · simp [save_conversation_to_db, hst]

theorem saveIter_noop (freshId : Nat) (st : ConvState) (sid : Nat)
    (hflag : st.ai_message_saved = true) (hsid : st.session_id = some sid) :
    ∀ n, saveIter freshId n st = .ok (st, []) := by
  intro n
  induction n with
  | zero => rfl
  | succ n ih => simp [saveIter, save_noop freshId st sid hflag hsid, ih, except_ok_bind]

/-- C5. Idempotent persistence: for every completed conversation whose
assistant reply is not yet persisted (`ai_message_saved` false, as after
`create_conversation` or a reuse in `_show_input_box`) and whose result
is present, invoking `save_conversation_to_db` `n+1` times in a row
persists the assistant message exactly once: the first call emits the
single assistant `saveMessage` and sets `ai_message_saved`, every later
call returns without persisting. -/
theorem c5_idempotent_persistence (freshId : Nat) (st : ConvState) (r : RagResult)
    (n : Nat) (hst : st.status = "completed") (hflag : st.ai_message_saved = false)
    (hres : st.result = some r) :
    ∃ (stf : ConvState) (calls : List DbCall),
      saveIter freshId (n + 1) st = .ok (stf, calls) ∧
      countAssistantSaves calls = 1 ∧ stf.ai_message_saved = true := by
  cases hsid : st.session_id with
  | some sid =>
    have hsave : save_conversation_to_db freshId st =
        .ok ({ st with ai_message_saved := true },
          [DbCall.saveMessage sid "assistant" r.answer (some r.retrieved_docs)
            (some r.thinking_process) r.tokens_used]) := by
      simp [save_conversation_to_db, hst, lazySession, hsid, hflag, hres]
    have hiter := saveIter_noop freshId { st with ai_message_saved := true } sid rfl
      (by simp [hsid]) n
    refine ⟨{ st with ai_message_saved := true },
      [DbCall.saveMessage sid "assistant" r.answer (some r.retrieved_docs)
        (some r.thinking_process) r.tokens_used], ?_, ?_, rfl⟩
    · simp [saveIter, hsave, hiter, except_ok_bind]
    · simp [countAssistantSaves]
  | none =>
    have hsave : save_conversation_to_db freshId st =
        .ok ({ st with session_id := some freshId, ai_message_saved := true },
          [DbCall.createSession st.user_id st.question,
           DbCall.saveMessage freshId "user" st.question none none 0,
           DbCall.saveMessage freshId "assistant" r.answer (some r.retrieved_docs)
             (some r.thinking_process) r.tokens_used]) := by
      simp [save_conversation_to_db, hst, lazySession, hsid, hflag, hres]
    have hiter := saveIter_noop freshId
      { st with session_id := some freshId, ai_message_saved := true } freshId rfl rfl n
    refine ⟨{ st with session_id := some freshId, ai_message_saved := true },
      [DbCall.createSession st.user_id st.question,
       DbCall.saveMessage freshId "user" st.question none none 0,
       DbCall.saveMessage freshId "assistant" r.answer (some r.retrieved_docs)
         (some r.thinking_process) r.tokens_used], ?_, ?_, rfl⟩
    · simp [saveIter, hsave, hiter, except_ok_bind]
    · simp [countAssistantSaves]

/-- Witness for C5: two successive invocations on a concrete completed
conversation persist the assistant message exactly once. -/
theorem c5_idempotent_persistence_witness :
    ∃ (stf : ConvState) (calls : List DbCall),
      saveIter 9 (1 + 1) sampleCompletedConv = .ok (stf, calls) ∧
      countAssistantSaves calls = 1 ∧ stf.ai_message_saved = true :=
  c5_idempotent_persistence 9 sampleCompletedConv sampleResult 1 rfl rfl rfl

/-! ## Helper lemmas: the dispatcher drain loop -/

theorem save_fields (freshId : Nat) (st : ConvState) (r : RagResult)
    (hst : st.status = "completed") (hres : st.result = some r) :
    ∃ st2 calls, save_conversation_to_db freshId st = .ok (st2, calls) ∧
      st2.status = st.status ∧ st2.result = st.result ∧
      st2.current_answer = st.current_answer ∧ st2.update_queue = st.update_queue ∧
      st2.messages = st.messages := by
  cases hsid : st.session_id with
  | some sid =>
    by_cases hflag : st.ai_message_saved = true
    · exact ⟨st, [], save_noop freshId st sid hflag hsid, rfl, rfl, rfl, rfl, rfl⟩
    · have hflag' : st.ai_message_saved = false := by
        simpa using hflag
      refine ⟨{ st with ai_message_saved := true },
        [DbCall.saveMessage sid "assistant" r.answer (some r.retrieved_docs)
          (some r.thinking_process) r.tokens_used], ?_, rfl, rfl, rfl, rfl, rfl⟩
      simp [save_conversation_to_db, hst, lazySession, hsid, hflag', hres]
  | none =>
    by_cases hflag : st.ai_message_saved = true
    · refine ⟨{ st with session_id := some freshId },
        [DbCall.createSession st.user_id st.question,
         DbCall.saveMessage freshId "user" st.question none none 0], ?_,
        rfl, rfl, rfl, rfl, rfl⟩
      simp [save_conversation_to_db, hst, lazySession, hsid, hflag]
    · have hflag' : st.ai_message_saved = false := by
        simpa using hflag
      refine ⟨{ st with session_id := some freshId, ai_message_saved := true },
        [DbCall.createSession st.user_id st.question,
         DbCall.saveMessage freshId "user" st.question none none 0,
         DbCall.saveMessage freshId "assistant" r.answer (some r.retrieved_docs)
           (some r.thinking_process) r.tokens_used], ?_, rfl, rfl, rfl, rfl, rfl⟩
      simp [save_conversation_to_db, hst, lazySession, hsid, hflag', hres]

theorem drainConv_zero (freshId : Nat) (st : ConvState) :
    drainConv freshId 0 st = .ok (st, [], 0, 0, false) := rfl

theorem drainConv_succ_nil (freshId fuel : Nat) (st : ConvState)
    (hq : st.update_queue = []) :
    drainConv freshId (fuel + 1) st = .ok (st, [], 0, 0, false) := by
  simp only [drainConv, hq]

theorem drainConv_succ_chunk (freshId fuel : Nat) (st : ConvState) (c : String)
    (rest : List QueueEntry) (st2 : ConvState) (calls : List DbCall) (cc tc : Nat)
    (upd : Bool) (hq : st.update_queue = QueueEntry.chunk c :: rest)
    (hrec : drainConv freshId fuel
        { st with update_queue := rest, current_answer := st.current_answer ++ c }
      = .ok (st2, calls, cc, tc, upd)) :
    drainConv freshId (fuel + 1) st = .ok (st2, calls, cc + 1, tc + 1, true) := by
  simp only [drainConv, hq, hrec, except_ok_bind]
  rfl

theorem drainConv_succ_thinking (freshId fuel : Nat) (st : ConvState)
    (tp : List ThinkingStep) (rest : List QueueEntry) (st2 : ConvState)
    (calls : List DbCall) (cc tc : Nat) (upd : Bool)
    (hq : st.update_queue = QueueEntry.thinking tp :: rest)
    (hrec : drainConv freshId fuel { st with update_queue := rest }
      = .ok (st2, calls, cc, tc, upd)) :
    drainConv freshId (fuel + 1) st = .ok (st2, calls, cc, tc + 1, upd) := by
  simp only [drainConv, hq, hrec, except_ok_bind]
  rfl

theorem drainConv_succ_complete (freshId fuel : Nat) (st : ConvState) (d : RagResult)
    (rest : List QueueEntry) (st2 : ConvState) (calls : List DbCall)
    (hq : st.update_queue = QueueEntry.complete d :: rest)
    (hsave : save_conversation_to_db freshId
        { st with
          update_queue := rest
          status := "completed"
          result := some d
          current_answer := d.answer
          messages := st.messages ++
            [⟨"assistant", d.answer, some d.retrieved_docs, some d.thinking_process⟩] }
      = .ok (st2, calls)) :
    drainConv freshId (fuel + 1) st = .ok (st2, calls, 0, 1, true) := by
  simp only [drainConv, hq, hsave, except_ok_bind]
  rfl

theorem drainConv_succ_error (freshId fuel : Nat) (st : ConvState) (m : String)
    (rest : List QueueEntry) (hq : st.update_queue = QueueEntry.error m :: rest) :
    drainConv freshId (fuel + 1) st
      = .ok ({ st with update_queue := rest, status := "error", error := some m },
          [], 0, 1, true) := by
  simp only [drainConv, hq]

theorem drainConv_chunks (freshId : Nat) : ∀ (fuel : Nat) (cs : List String)
    (st : ConvState), st.update_queue = cs.map QueueEntry.chunk →
    drainConv freshId fuel st = .ok
      ({ st with current_answer := st.current_answer ++ String.join (cs.take fuel),
                 update_queue := (cs.drop fuel).map QueueEntry.chunk },
       [], min fuel cs.length, min fuel cs.length, decide (0 < min fuel cs.length)) := by
  intro fuel
  induction fuel with
  | zero =>
    intro cs st hq
    rw [drainConv_zero]
    simp only [List.take_zero, List.drop_zero, Nat.zero_min, ← hq,
      show String.join [] = "" from rfl, String.append_empty]
    simp
  | succ fuel ih =>
    intro cs st hq
    cases cs with
    | nil =>
      simp only [List.map_nil] at hq
      rw [drainConv_succ_nil freshId fuel st hq]
      simp only [List.take_nil, List.drop_nil, List.map_nil, List.length_nil,
        Nat.min_zero, ← hq, show String.join [] = "" from rfl, String.append_empty]
      simp
    | cons c cs' =>
      have hq' : st.update_queue = QueueEntry.chunk c :: cs'.map QueueEntry.chunk := by
        simpa using hq
      have hrec := ih cs'
        { st with update_queue := cs'.map QueueEntry.chunk,
                  current_answer := st.current_answer ++ c } rfl
      rw [drainConv_succ_chunk freshId fuel st c (cs'.map QueueEntry.chunk) _ _ _ _ _
        hq' hrec]
      simp only [List.take_succ_cons, List.drop_succ_cons, join_cons,
        String.append_assoc, List.length_cons, Nat.succ_min_succ]
      simp

theorem drainConv_complete (freshId : Nat) : ∀ (pre : List QueueEntry) (fuel : Nat)
    (st : ConvState) (d : RagResult) (rest : List QueueEntry),
    (∀ e ∈ pre, isTerminalEntry e = false) → pre.length < fuel →
    st.update_queue = pre ++ QueueEntry.complete d :: rest →
    ∃ st2 calls cc tc, drainConv freshId fuel st = .ok (st2, calls, cc, tc, true) ∧
      st2.status = "completed" ∧ st2.result = some d ∧
      st2.current_answer = d.answer ∧ st2.update_queue = rest ∧
      st2.messages = st.messages ++
        [⟨"assistant", d.answer, some d.retrieved_docs, some d.thinking_process⟩] := by
  intro pre
  induction pre with
  | nil =>
    intro fuel st d rest _hpre hlen hq
    obtain ⟨f, rfl⟩ : ∃ f, fuel = f + 1 := ⟨fuel - 1, by omega⟩
    simp only [List.nil_append] at hq
    obtain ⟨st2, calls, hsave, h1, h2, h3, h4, h5⟩ :=
      save_fields freshId
        { st with
          update_queue := rest
          status := "completed"
          result := some d
          current_answer := d.answer
          messages := st.messages ++
            [⟨"assistant", d.answer, some d.retrieved_docs, some d.thinking_process⟩] }
        d rfl rfl
    exact ⟨st2, calls, 0, 1, drainConv_succ_complete freshId f st d rest st2 calls hq hsave,
      by simpa using h1, by simpa using h2, by simpa using h3, by simpa using h4,
      by simpa using h5⟩
  | cons e pre' ih =>
    intro fuel st d rest hpre hlen hq
    obtain ⟨f, rfl⟩ : ∃ f, fuel = f + 1 := ⟨fuel - 1, by omega⟩
    have hlen' : pre'.length < f := by
      simp only [List.length_cons] at hlen
      omega
    have hpre' : ∀ x ∈ pre', isTerminalEntry x = false := fun x hx =>
      hpre x (List.mem_cons_of_mem e hx)
    cases e with
    | chunk c =>
      obtain ⟨st2, calls, cc, tc, hdrain, h1, h2, h3, h4, h5⟩ :=
        ih f { st with update_queue := pre' ++ QueueEntry.complete d :: rest,
                       current_answer := st.current_answer ++ c } d rest hpre' hlen' rfl
      have hq' : st.update_queue =
          QueueEntry.chunk c :: (pre' ++ QueueEntry.complete d :: rest) := by
        simpa using hq
      exact ⟨st2, calls, cc + 1, tc + 1,
        drainConv_succ_chunk freshId f st c _ _ _ _ _ _ hq' hdrain,
        h1, h2, h3, h4, by simpa using h5⟩
    | thinking tp =>
      obtain ⟨st2, calls, cc, tc, hdrain, h1, h2, h3, h4, h5⟩ :=
        ih f { st with update_queue := pre' ++ QueueEntry.complete d :: rest }
          d rest hpre' hlen' rfl
      exact ⟨st2, calls, cc, tc + 1,
        drainConv_succ_thinking freshId f st tp _ _ _ _ _ _ (by simpa using hq) hdrain,
        h1, h2, h3, h4, by simpa using h5⟩
    | complete d' =>
      exact absurd (hpre _ (List.mem_cons_self _ _)) (by simp [isTerminalEntry])
    | error m =>
      exact absurd (hpre _ (List.mem_cons_self _ _)) (by simp [isTerminalEntry])

theorem drainConv_error (freshId : Nat) : ∀ (pre : List QueueEntry) (fuel : Nat)
    (st : ConvState) (m : String) (rest : List QueueEntry),
    (∀ e ∈ pre, isTerminalEntry e = false) → pre.length < fuel →
    st.update_queue = pre ++ QueueEntry.error m :: rest →
    ∃ cc tc, drainConv freshId fuel st = .ok
      ({ st with
          update_queue := rest
          status := "error"
          error := some m
          current_answer := st.current_answer ++ String.join (pre.filterMap chunkText) },
       [], cc, tc, true) := by
  intro pre
  induction pre with
  | nil =>
    intro fuel st m rest _hpre hlen hq
    obtain ⟨f, rfl⟩ : ∃ f, fuel = f + 1 := ⟨fuel - 1, by omega⟩
    simp only [List.nil_append] at hq
    refine ⟨0, 1, ?_⟩
    rw [drainConv_succ_error freshId f st m rest hq]
    simp [String.join, String.append_empty]
  | cons e pre' ih =>
    intro fuel st m rest hpre hlen hq
    obtain ⟨f, rfl⟩ : ∃ f, fuel = f + 1 := ⟨fuel - 1, by omega⟩
    have hlen' : pre'.length < f := by
      simp only [List.length_cons] at hlen
      omega
    have hpre' : ∀ x ∈ pre', isTerminalEntry x = false := fun x hx =>
      hpre x (List.mem_cons_of_mem e hx)
    cases e with
    | chunk c =>
      obtain ⟨cc, tc, hdrain⟩ :=
        ih f { st with update_queue := pre' ++ QueueEntry.error m :: rest,
                       current_answer := st.current_answer ++ c } m rest hpre' hlen' rfl
      refine ⟨cc + 1, tc + 1, ?_⟩
      have hq' : st.update_queue =
          QueueEntry.chunk c :: (pre' ++ QueueEntry.error m :: rest) := by
        simpa using hq
      rw [drainConv_succ_chunk freshId f st c _ _ _ _ _ _ hq' hdrain]
      simp [chunkText, join_cons, String.append_assoc]
    | thinking tp =>
      obtain ⟨cc, tc, hdrain⟩ :=
        ih f { st with update_queue := pre' ++ QueueEntry.error m :: rest }
          m rest hpre' hlen' rfl
      refine ⟨cc, tc + 1, ?_⟩
      rw [drainConv_succ_thinking freshId f st tp _ _ _ _ _ _ (by simpa using hq) hdrain]
      simp [chunkText]
    | complete d' =>
      exact absurd (hpre _ (List.mem_cons_self _ _)) (by simp [isTerminalEntry])
    | error m' =>
      exact absurd (hpre _ (List.mem_cons_self _ _)) (by simp [isTerminalEntry])

theorem process_single (freshId : Nat) (cid : String) (st st2 : ConvState)
    (calls : List DbCall) (cc tc : Nat) (upd : Bool)
    (hdrain : drainConv freshId 10 st = .ok (st2, calls, cc, tc, upd)) :
    process_all_updates freshId ⟨some cid, [(cid, st)]⟩
      = .ok (⟨some cid, [(cid, st2)]⟩, calls, upd, cc, tc) := by
  have hothers : drainOthers freshId (some cid) [(cid, st2)] = .ok ([(cid, st2)], []) := by
    simp [drainOthers]
  have hset : setConv [(cid, st)] cid st2 = [(cid, st2)] := by
    simp [setConv]
  have hlook : lookupConv [(cid, st)] cid = some st := by
    simp [lookupConv]
  simp only [process_all_updates, hlook, hdrain, except_ok_bind, hset, hothers,
    List.append_nil]
  rfl

/-! ## C6: dispatcher drain bound and order -/

/-- C6. For a focused conversation: (A) with a queue of `n` chunk events,
one call to `process_all_updates` removes exactly `min 10 n` entries,
appends the removed payloads to `current_answer` in FIFO order and leaves
the remaining `n - 10` entries untouched in order (`cs.drop 10`); (B) if
a `complete` entry is dequeued within the batch, the conversation is
marked `completed`, the result stored, an assistant message appended, and
draining stops at that entry (the entries after it stay queued); (C) if
an `error` entry is dequeued, the status becomes `error`, the message is
stored, and draining stops at that entry. -/
theorem c6_dispatcher_drain_bound (freshId : Nat) (cid : String) (st : ConvState)
    (d : RagResult) (m : String) (cs : List String) (pre rest : List QueueEntry)
    (hpre : ∀ e ∈ pre, isTerminalEntry e = false) (hlen : pre.length < 10) :
    (st.update_queue = cs.map QueueEntry.chunk →
      process_all_updates freshId ⟨some cid, [(cid, st)]⟩ = .ok
        (⟨some cid, [(cid, { st with
            current_answer := st.current_answer ++ String.join (cs.take 10),
            update_queue := (cs.drop 10).map QueueEntry.chunk })]⟩,
         [], decide (0 < min 10 cs.length), min 10 cs.length, min 10 cs.length)) ∧
    (st.update_queue = pre ++ QueueEntry.complete d :: rest →
      ∃ st2 calls cc tc,
        process_all_updates freshId ⟨some cid, [(cid, st)]⟩
          = .ok (⟨some cid, [(cid, st2)]⟩, calls, true, cc, tc) ∧
        st2.status = "completed" ∧ st2.result = some d ∧
        st2.current_answer = d.answer ∧ st2.update_queue = rest ∧
        st2.messages = st.messages ++
          [⟨"assistant", d.answer, some d.retrieved_docs, some d.thinking_process⟩]) ∧
    (st.update_queue = pre ++ QueueEntry.error m :: rest →
      ∃ cc tc,
        process_all_updates freshId ⟨some cid, [(cid, st)]⟩ = .ok
          (⟨some cid, [(cid, { st with
              update_queue := rest
              status := "error"
              error := some m
              current_answer := st.current_answer ++
                String.join (pre.filterMap chunkText) })]⟩,
           [], true, cc, tc)) := by
  refine ⟨?_, ?_, ?_⟩
  · intro hq
    exact process_single freshId cid st _ _ _ _ _ (drainConv_chunks freshId 10 cs st hq)
  · intro hq
    obtain ⟨st2, calls, cc, tc, hdrain, h1, h2, h3, h4, h5⟩ :=
      drainConv_complete freshId pre 10 st d rest hpre hlen hq
    exact ⟨st2, calls, cc, tc, process_single freshId cid st _ _ _ _ _ hdrain,
      h1, h2, h3, h4, h5⟩
  · intro hq
    obtain ⟨cc, tc, hdrain⟩ := drainConv_error freshId pre 10 st m rest hpre hlen hq
    exact ⟨cc, tc, process_single freshId cid st _ _ _ _ _ hdrain⟩

/-- Witness for C6: the theorem evaluated on a concrete conversation
whose queue holds 25 chunk events, with a two-chunk batch prefix. -/
theorem c6_dispatcher_drain_bound_witness :
    ((sampleGenConv ((List.replicate 25 "x").map QueueEntry.chunk)).update_queue
        = (List.replicate 25 "x").map QueueEntry.chunk →
      process_all_updates 11 ⟨some "conv_x",
          [("conv_x", sampleGenConv ((List.replicate 25 "x").map QueueEntry.chunk))]⟩
        = .ok
        (⟨some "conv_x", [("conv_x",
            { sampleGenConv ((List.replicate 25 "x").map QueueEntry.chunk) with
              current_answer :=
                (sampleGenConv ((List.replicate 25 "x").map QueueEntry.chunk)).current_answer
                  ++ String.join ((List.replicate 25 "x").take 10)
              update_queue := ((List.replicate 25 "x").drop 10).map QueueEntry.chunk })]⟩,
         [], decide (0 < min 10 (List.replicate 25 "x").length),
         min 10 (List.replicate 25 "x").length,
         min 10 (List.replicate 25 "x").length)) ∧
    ((sampleGenConv ((List.replicate 25 "x").map QueueEntry.chunk)).update_queue
        = [QueueEntry.chunk "Hel", QueueEntry.chunk "lo"]
            ++ QueueEntry.complete sampleResult :: [] →
      ∃ st2 calls cc tc,
        process_all_updates 11 ⟨some "conv_x",
            [("conv_x", sampleGenConv ((List.replicate 25 "x").map QueueEntry.chunk))]⟩
          = .ok (⟨some "conv_x", [("conv_x", st2)]⟩, calls, true, cc, tc) ∧
        st2.status = "completed" ∧ st2.result = some sampleResult ∧
        st2.current_answer = sampleResult.answer ∧ st2.update_queue = [] ∧
        st2.messages =
          (sampleGenConv ((List.replicate 25 "x").map QueueEntry.chunk)).messages ++
            [⟨"assistant", sampleResult.answer, some sampleResult.retrieved_docs,
              some sampleResult.thinking_process⟩]) ∧
    ((sampleGenConv ((List.replicate 25 "x").map QueueEntry.chunk)).update_queue
        = [QueueEntry.chunk "Hel", QueueEntry.chunk "lo"]
            ++ QueueEntry.error "boom" :: [] →
      ∃ cc tc,
        process_all_updates 11 ⟨some "conv_x",
            [("conv_x", sampleGenConv ((List.replicate 25 "x").map QueueEntry.chunk))]⟩
          = .ok
          (⟨some "conv_x", [("conv_x",
              { sampleGenConv ((List.replicate 25 "x").map QueueEntry.chunk) with
                update_queue := ([] : List QueueEntry)
                status := "error"
                error := some "boom"
                current_answer :=
                  (sampleGenConv ((List.replicate 25 "x").map QueueEntry.chunk)).current_answer
                    ++ String.join ([QueueEntry.chunk "Hel",
                        QueueEntry.chunk "lo"].filterMap chunkText) })]⟩,
           [], true, cc, tc)) :=
  c6_dispatcher_drain_bound 11 "conv_x"
    (sampleGenConv ((List.replicate 25 "x").map QueueEntry.chunk))
    sampleResult "boom" (List.replicate 25 "x")
    [QueueEntry.chunk "Hel", QueueEntry.chunk "lo"] []
    (by decide) (by decide)

/-! ## C8: error terminality -/

/-- C8. If the pipeline raises an exception at any point of the worker's
iteration (after yielding the event prefix `events`, which precedes the
terminal `complete` event — `query_stream` yields `complete` only as its
last event), the worker enqueues exactly one `error` entry carrying the
exception message, as the last entry, with nothing (in particular no
`complete`) after it; the dispatcher then marks the conversation `error`
and stores the message, while the chunks enqueued before the failure
remain accumulated in `current_answer`. -/
theorem c8_error_terminality (events : List StreamEvent) (m : String) (freshId : Nat)
    (cid : String) (st : ConvState)
    (hlen : (events.filterMap entryOfEvent).length < 10)
    (hnoc : ∀ e ∈ events, completePayload e = none)
    (hq : st.update_queue = background_generation events (some m)) :
    ((background_generation events (some m)).filter isErrorEntry
        = [QueueEntry.error m]) ∧
    ((background_generation events (some m)).getLast? = some (QueueEntry.error m)) ∧
    (∃ cc tc, process_all_updates freshId ⟨some cid, [(cid, st)]⟩ = .ok
      (⟨some cid, [(cid, { st with
          update_queue := ([] : List QueueEntry)
          status := "error"
          error := some m
          current_answer := st.current_answer ++
            String.join ((events.filterMap entryOfEvent).filterMap chunkText) })]⟩,
       [], true, cc, tc)) := by
  have hterm : ∀ x ∈ events.filterMap entryOfEvent, isTerminalEntry x = false := by
    intro x hx
    obtain ⟨ev, hev, hx2⟩ := List.mem_filterMap.mp hx
    cases ev with
    | chunk c =>
      by_cases hc : c = ""
      · simp [entryOfEvent, hc] at hx2
      · simp [entryOfEvent, hc] at hx2
        simp [← hx2, isTerminalEntry]
    | thinking tp =>
      simp [entryOfEvent] at hx2
      simp [← hx2, isTerminalEntry]
    | complete r =>
      have := hnoc _ hev
      simp [completePayload] at this
  have herr : ∀ x ∈ events.filterMap entryOfEvent, isErrorEntry x = false := by
    intro x hx
    obtain ⟨ev, hev, hx2⟩ := List.mem_filterMap.mp hx
    cases ev with
    | chunk c =>
      by_cases hc : c = ""
      · simp [entryOfEvent, hc] at hx2
      · simp [entryOfEvent, hc] at hx2
        simp [← hx2, isErrorEntry]
    | thinking tp =>
      simp [entryOfEvent] at hx2
      simp [← hx2, isErrorEntry]
    | complete r =>
      simp [entryOfEvent] at hx2
      simp [← hx2, isErrorEntry]
  have hbg : background_generation events (some m)
      = events.filterMap entryOfEvent ++ [QueueEntry.error m] := rfl
  refine ⟨?_, ?_, ?_⟩
  · rw [hbg, List.filter_append]
    rw [List.filter_eq_nil_iff.mpr (by intro a ha; simp [herr a ha])]
    simp [isErrorEntry]
  · rw [hbg, List.getLast?_concat]
  · have hq' : st.update_queue
        = events.filterMap entryOfEvent ++ QueueEntry.error m :: [] := by
      rw [hq, hbg]
    obtain ⟨cc, tc, hdrain⟩ :=
      drainConv_error freshId (events.filterMap entryOfEvent) 10 st m [] hterm hlen hq'
    exact ⟨cc, tc, process_single freshId cid st _ _ _ _ _ hdrain⟩

/-- Witness for C8: a concrete worker run that yields one thinking event
and three chunks (one empty) before raising, with the queue drained. -/
theorem c8_error_terminality_witness :
    ((background_generation [StreamEvent.thinking [], StreamEvent.chunk "He",
        StreamEvent.chunk "", StreamEvent.chunk "llo"] (some "ConnectionError")).filter
          isErrorEntry = [QueueEntry.error "ConnectionError"]) ∧
    ((background_generation [StreamEvent.thinking [], StreamEvent.chunk "He",
        StreamEvent.chunk "", StreamEvent.chunk "llo"]
          (some "ConnectionError")).getLast?
        = some (QueueEntry.error "ConnectionError")) ∧
    (∃ cc tc, process_all_updates 12 ⟨some "conv_y",
        [("conv_y", sampleGenConv (background_generation [StreamEvent.thinking [],
            StreamEvent.chunk "He", StreamEvent.chunk "", StreamEvent.chunk "llo"]
            (some "ConnectionError")))]⟩ = .ok
      (⟨some "conv_y", [("conv_y",
          { sampleGenConv (background_generation [StreamEvent.thinking [],
              StreamEvent.chunk "He", StreamEvent.chunk "", StreamEvent.chunk "llo"]
              (some "ConnectionError")) with
            update_queue := ([] : List QueueEntry)
            status := "error"
            error := some "ConnectionError"
            current_answer :=
              (sampleGenConv (background_generation [StreamEvent.thinking [],
                  StreamEvent.chunk "He", StreamEvent.chunk "", StreamEvent.chunk "llo"]
                  (some "ConnectionError"))).current_answer ++
                String.join (([StreamEvent.thinking [], StreamEvent.chunk "He",
                    StreamEvent.chunk "", StreamEvent.chunk "llo"].filterMap
                      entryOfEvent).filterMap chunkText) })]⟩,
       [], true, cc, tc)) :=
  c8_error_terminality
    [StreamEvent.thinking [], StreamEvent.chunk "He", StreamEvent.chunk "",
      StreamEvent.chunk "llo"] "ConnectionError" 12 "conv_y"
    (sampleGenConv (background_generation [StreamEvent.thinking [],
      StreamEvent.chunk "He", StreamEvent.chunk "", StreamEvent.chunk "llo"]
      (some "ConnectionError")))
    (by decide) (by decide) rfl

/-! ## C7: shared-index count saturation fallback -/

/-- C7. In the shared-index (cloud) variant, when the bounded probe query
returns exactly the cap of 10000 matches, `get_document_count` consults
the persisted chunk-count collaborator and returns the maximum of the
probe count and the collaborator's count; when the probe returns fewer
than the cap, the probe count is returned unchanged (whatever the
collaborator would say). -/
theorem c7_count_saturation (localCount : Except String Nat)
    (dbCount : Except String Nat) (dbc : Nat) (c : Nat) :
    (dbCount = .ok dbc →
      get_document_count "cloud" (.ok ()) localCount (.ok (some 10000)) dbCount
        = max 10000 dbc) ∧
    (c < 10000 →
      get_document_count "cloud" (.ok ()) localCount (.ok (some c)) dbCount = c) := by
  constructor
  · intro h
    simp [get_document_count, h]
  · intro h
    have hne : c ≠ 10000 := by omega
    simp [get_document_count, hne]

/-- Witness for C7: a saturated probe with an authoritative count of
12000 yields `max 10000 12000`; a probe of 500 is returned unchanged. -/
theorem c7_count_saturation_witness :
    ((Except.ok 12000 : Except String Nat) = .ok 12000 →
      get_document_count "cloud" (.ok ()) (.ok 0) (.ok (some 10000)) (.ok 12000)
        = max 10000 12000) ∧
    (500 < 10000 →
      get_document_count "cloud" (.ok ()) (.ok 0) (.ok (some 500)) (.ok 12000) = 500) :=
  c7_count_saturation (.ok 0) (.ok 12000) 12000 500

/-! ## C10: get_document_count is total and swallows backend errors -/

/-- C10. `get_document_count` never raises (its embedding is a total
function into `Nat`): if only the probe failed it returns the
chunk-count collaborator's value; if the collaborator fails too it
returns 0; if acquiring the vector store fails (either mode) it returns
0; if the local Chroma count fails it returns 0. By contrast,
`delete_documents` on the same component logs and re-raises both a
failed delete call and a failed store acquisition. -/
theorem c10_count_never_raises (localCount dbCount : Except String Nat)
    (probe : Except String (Option Nat)) (e e2 : String) (dbc : Nat) :
    (get_document_count "cloud" (.ok ()) localCount (.error e) (.ok dbc) = dbc) ∧
    (get_document_count "cloud" (.ok ()) localCount (.error e) (.error e2) = 0) ∧
    (∀ mode, get_document_count mode (.error e) localCount probe dbCount = 0) ∧
    (get_document_count "local" (.ok ()) (.error e) probe dbCount = 0) ∧
    (delete_documents (.ok ()) (.error e) = .error e) ∧
    (delete_documents (.error e) (.ok ()) = .error e) := by
  refine ⟨by simp [get_document_count], by simp [get_document_count], ?_, ?_, rfl, rfl⟩
  · intro mode
    rfl
  · simp [get_document_count]

end RagSpec
